import Mathlib

/-!
# Verification of the cloud-init configuration / seed resolution core

Shallow embedding of `cloudinit/util.py` (the configuration merge engine and
the seed resolution engine) and proofs about it.

Modelling conventions:

* Python values flowing through the merge pipeline are modelled by `Val`
  (None, bool, int, str, list, dict).  Python dictionaries are modelled as
  association lists with unique keys; `dSet` preserves the position of an
  existing key and appends new keys at the end, like CPython insertion
  semantics.  CPython 2.7 iteration order over a dict is unspecified; the
  model iterates in association-list order, and every concrete result proved
  below is independent of that order (all colliding keys in the concrete
  inputs produce the same outcome whichever is visited first).
* Exceptions are modelled with `Except`; an uncaught Python exception is an
  `Except.error`.
* The filesystem, the kernel command line and the YAML parser are external
  inputs, collected in `Env`.  `Env.files f = none` models `IOError ENOENT`
  when opening `f` (the only `IOError` the model produces; other OS-level
  I/O errors are outside the embedding).  `Env.yamlLoad s = none` models
  `yaml.load` raising `YAMLError`; `some v` is a successful parse with root
  value `v` (of any type: `load_yaml` itself checks the root type).
* The HTTP/file fetch client `url_helper.readurl` is not under `src/`; it is
  an external capability parameter `ReadUrl` returning either
  `(content, statusCode)` or a fetch error (`enoent` for a missing
  file-backed source, `other` for any other I/O error).  To make the order
  and arguments of fetches observable, the seed functions also return the
  list of fetch calls they performed, in order.
-/

namespace Cloudinit

/-- A Python value as it appears in the configuration pipeline: `None`,
`bool`, `int`, `str`, `list` or `dict` (modelled as an association list). -/
inductive Val where
  | null
  | bool (b : Bool)
  | int (n : Int)
  | str (s : String)
  | list (xs : List Val)
  | dict (d : List (String × Val))

/-- `isinstance(v, dict)`. -/
def isDict : Val → Bool
  | Val.dict _ => true
  | _ => false

/-- `util.obj_name`: the Python type name of a value, as used in the
`TypeError` messages raised by `mergedict` and `read_conf_with_confd`. -/
def obj_name : Val → String
  | Val.null => "NoneType"
  | Val.bool _ => "bool"
  | Val.int _ => "int"
  | Val.str _ => "str"
  | Val.list _ => "list"
  | Val.dict _ => "dict"

/-- Python truthiness of a `Val` (`if v:`). -/
def truthy : Val → Bool
  | Val.null => false
  | Val.bool b => b
  | Val.int n => decide (n ≠ 0)
  | Val.str s => !s.isEmpty
  | Val.list xs => !xs.isEmpty
  | Val.dict d => !d.isEmpty

/-- Dictionary lookup (`d[k]` / `k in d`). -/
def dGet (d : List (String × Val)) (k : String) : Option Val :=
  match d with
  | [] => none
  | (k2, v) :: rest => if k2 = k then some v else dGet rest k

/-- Dictionary assignment `d[k] = v`: replaces the value in place if the key
exists, otherwise appends the key at the end (CPython insertion order). -/
def dSet (d : List (String × Val)) (k : String) (v : Val) : List (String × Val) :=
  match d with
  | [] => [(k, v)]
  | (k2, v2) :: rest => if k2 = k then (k, v) :: rest else (k2, v2) :: dSet rest k v

/-- Which operand of `mergedict` a `TypeError` blames: `src` is the merge
target (its message reads "Attempting to merge a non dictionary source
type: <t>"), `cand` is the merge source (message "... candidate
type: <t>"). -/
inductive MergeSide where
  | src
  | cand
deriving DecidableEq

/-- The `TypeError` raised by `mergedict`: which operand was not a
dictionary, and that operand's resolved type name (`obj_name`). -/
structure MergeErr where
  side : MergeSide
  typeName : String
deriving DecidableEq

mutual
/-- `util.mergedict(src, cand)`:

```python
if isinstance(src, dict) and isinstance(cand, dict):
    for k, v in cand.iteritems():
        if k not in src:
            src[k] = v
        else:
            src[k] = mergedict(src[k], v)
else:
    if not isinstance(src, dict):
        raise TypeError(... "source type: %s" % obj_name(src))
    if not isinstance(cand, dict):
        raise TypeError(... "candidate type: %s" % obj_name(cand))
return src
```
-/
def mergedict : Val → Val → Except MergeErr Val
  | Val.dict ds, Val.dict cs => (mergeItems ds cs).map Val.dict
  | s, c =>
      if isDict s then Except.error ⟨MergeSide.cand, obj_name c⟩
      else Except.error ⟨MergeSide.src, obj_name s⟩
termination_by s c => sizeOf c

/-- The `for k, v in cand.iteritems()` loop body of `mergedict`. -/
def mergeItems (ds : List (String × Val)) : List (String × Val) → Except MergeErr (List (String × Val))
  | [] => Except.ok ds
  | (k, v) :: rest =>
      match dGet ds k with
      | none => mergeItems (dSet ds k v) rest
      | some sv =>
          match mergedict sv v with
          | Except.error e => Except.error e
          | Except.ok mv => mergeItems (dSet ds k mv) rest
termination_by cs => sizeOf cs
end

/-- External inputs of the configuration pipeline: the filesystem (read-only
queries), the kernel command line and the YAML parser. -/
structure Env where
  /-- `load_file f`: `some contents`, or `none` for `IOError ENOENT`. -/
  files : String → Option String
  /-- `os.listdir`. -/
  listdir : String → List String
  /-- `os.path.isfile`. -/
  isfile : String → Bool
  /-- `os.path.isdir`. -/
  isdir : String → Bool
  /-- `get_cmdline()`. -/
  cmdline : String
  /-- `yaml.load`: `none` models a `YAMLError`, `some v` a parse with root
  value `v` of any type. -/
  yamlLoad : String → Option Val

/-- `util.load_yaml(blob, default, allowed=(dict,))`: returns the parsed
value when parsing succeeds and the root is a dict, and `dflt` otherwise
(both the `YAMLError` and the wrong-root-type `TypeError` are caught and
logged).  All call sites in the embedded core pass `allowed=(dict,)`. -/
def load_yaml (yamlLoad : String → Option Val) (blob : String) (dflt : Val) : Val :=
  match yamlLoad blob with
  | none => dflt
  | some v => if isDict v then v else dflt

/-- `util.read_conf(fname)`: `{}` when the file is absent (`ENOENT`),
otherwise `load_yaml(contents, default={})`. -/
def read_conf (env : Env) (fname : String) : Val :=
  match env.files fname with
  | none => Val.dict []
  | some contents => load_yaml env.yamlLoad contents (Val.dict [])

/-- Python string comparison `b < a` (lexicographic on characters). -/
def strGt (a b : String) : Bool := decide (b < a)

/-- Insert into a descending-sorted list, keeping it descending. -/
def insertDesc (x : String) : List String → List String
  | [] => [x]
  | y :: ys => if strGt x y then x :: y :: ys else y :: insertDesc x ys

/-- `sorted(l, reverse=True)`: descending lexicographic sort. -/
def sortDesc : List String → List String
  | [] => []
  | x :: xs => insertDesc x (sortDesc xs)

/-- `s.endswith(suffix)`. -/
def strEndsWith (s suf : String) : Bool := suf.data.isSuffixOf s.data

/-- `os.path.join(dir, f)` for a directory name without a trailing slash. -/
def joinPath (d f : String) : String := d ++ "/" ++ f

/-- The `for conf in confs:` fold of `read_conf_d`:
`cfg = mergedict(cfg, read_conf(os.path.join(confd, conf)))`. -/
def foldConfs (env : Env) (confd : String) : List String → Val → Except MergeErr Val
  | [], cfg => Except.ok cfg
  | f :: rest, cfg =>
      match mergedict cfg (read_conf env (joinPath confd f)) with
      | Except.error e => Except.error e
      | Except.ok cfg2 => foldConfs env confd rest cfg2

/-- `util.read_conf_d(confd)`: reverse-sort the directory listing, keep the
names ending in ".cfg" that are regular files, and fold them through
`mergedict` starting from `{}`. -/
def read_conf_d (env : Env) (confd : String) : Except MergeErr Val :=
  let confs := sortDesc (env.listdir confd)
  let confs := confs.filter (fun f => strEndsWith f ".cfg")
  let confs := confs.filter (fun f => env.isfile (joinPath confd f))
  foldConfs env confd confs (Val.dict [])

/-- An uncaught exception of the configuration resolution pipeline: a
`mergedict` `TypeError`, or the `TypeError` raised by
`read_conf_with_confd` for a truthy non-string `conf_d` value. -/
inductive CfgErr where
  | merge (e : MergeErr)
  | confdType (cfgfile : String) (typeName : String)
deriving DecidableEq

/-- Python `c in string.whitespace` (the characters stripped by
`str.strip` / `str.lstrip`). -/
def pyIsSpace (c : Char) : Bool :=
  c = ' ' || c = '\t' || c = '\n' || c = '\x0b' || c = '\x0c' || c = '\r'

/-- Python `s.strip()`. -/
def pstrip (s : String) : String :=
  String.mk (((s.data.dropWhile pyIsSpace).reverse.dropWhile pyIsSpace).reverse)

/-- The tail of `read_conf_with_confd` once a fragment directory has been
determined: `if not confd or not os.path.isdir(confd): return cfg;
return mergedict(read_conf_d(confd), cfg)`. -/
def mergeWithConfd (env : Env) (confd : String) (cfg : Val) : Except CfgErr Val :=
  if confd.isEmpty || !env.isdir confd then Except.ok cfg
  else
    match read_conf_d env confd with
    | Except.error e => Except.error (CfgErr.merge e)
    | Except.ok d =>
        match mergedict d cfg with
        | Except.error e => Except.error (CfgErr.merge e)
        | Except.ok merged => Except.ok merged

/-- `util.read_conf_with_confd(cfgfile)`: load the system file, determine
the fragment directory (an explicit truthy `conf_d` key, which must be a
string and is stripped; otherwise `<cfgfile>.d` when that is a directory),
and merge the fragment aggregate as base with the system document on top. -/
def read_conf_with_confd (env : Env) (cfgfile : String) : Except CfgErr Val :=
  let cfg := read_conf env cfgfile
  let items := match cfg with | Val.dict ds => ds | _ => []
  match dGet items "conf_d" with
  | some v =>
      if truthy v then
        match v with
        | Val.str s => mergeWithConfd env (pstrip s) cfg
        | _ => Except.error (CfgErr.confdType cfgfile (obj_name v))
      else Except.ok cfg
  | none =>
      if env.isdir (cfgfile ++ ".d") then mergeWithConfd env (cfgfile ++ ".d") cfg
      else Except.ok cfg

/-- Python `s.find(pat)` restricted to a suffix: index of the first
occurrence of `pat` in `s`, or `none` (Python's `-1`). -/
def findIdx? (pat : List Char) : List Char → Option Nat
  | [] => if pat.isEmpty then some 0 else none
  | c :: rest =>
      if pat.isPrefixOf (c :: rest) then some 0
      else (findIdx? pat rest).map (· + 1)

/-- Python `s.find(pat, start)`: lowest occurrence index `≥ start`, `none`
for Python's `-1` (also when `start` is past the end of the string). -/
def findFrom (pat s : List Char) (start : Nat) : Option Nat :=
  (findIdx? pat (s.drop start)).map (· + start)

/-- `tag_begin = "cc:"` (length 3). -/
def tagBegin : List Char := "cc:".data

/-- `tag_end = "end_cc"` (length 6). -/
def tagEnd : List Char := "end_cc".data

/-- Python `s.lstrip()` on a character list. -/
def lstripChars (s : List Char) : List Char := s.dropWhile pyIsSpace

/-- Python `s.replace("\\n", "\n")`: decode each literal two-character
backslash+n escape into a newline, left to right. -/
def replEsc : List Char → List Char
  | '\\' :: 'n' :: rest => '\n' :: replEsc rest
  | c :: rest => c :: replEsc rest
  | [] => []

/-- The `while begin >= 0:` loop of `read_cc_from_cmdline`, entered at a
found begin-sentinel index `b`:

```python
end = cmdline.find(tag_end, begin + begin_l)       # begin_l = 3
if end < 0:
    end = clen
tokens.append(cmdline[begin + begin_l:end].lstrip().replace("\\n", "\n"))
begin = cmdline.find(tag_begin, end + end_l)       # end_l = 6
```

When the end sentinel is missing the token runs to the end of the string and
the following `find` (from `clen + 6`) necessarily fails, so the loop stops
with that token as the last one. -/
def ccLoop (cl : List Char) (b : Nat) : List (List Char) :=
  match he : findFrom tagEnd cl (b + 3) with
  | none => [replEsc (lstripChars ((cl.drop (b + 3)).take (cl.length - (b + 3))))]
  | some e =>
      let tok := replEsc (lstripChars ((cl.drop (b + 3)).take (e - (b + 3))))
      match hb : findFrom tagBegin cl (e + 6) with
      | none => [tok]
      | some b2 => tok :: ccLoop cl b2
termination_by cl.length - b
decreasing_by
  have key : ∀ (pat : List Char), pat.isEmpty = false → ∀ (s : List Char) (i : Nat),
      findIdx? pat s = some i → i < s.length := by
    intro pat hpat s
    induction s with
    | nil => intro i h; simp [findIdx?, hpat] at h
    | cons c rest ih =>
        intro i h
        rw [findIdx?] at h
        split at h
        · injection h with h
          simp only [List.length_cons]
          omega
        · cases hfi : findIdx? pat rest with
          | none => rw [hfi] at h; simp [Option.map] at h
          | some j =>
              rw [hfi] at h
              simp only [Option.map, Option.some.injEq] at h
              have := ih j hfi
              simp only [List.length_cons]
              omega
  have keyFrom : ∀ (pat : List Char), pat.isEmpty = false →
      ∀ (s : List Char) (start i : Nat),
      findFrom pat s start = some i → start ≤ i ∧ i < s.length := by
    intro pat hpat s start i h
    rw [findFrom, Option.map_eq_some'] at h
    obtain ⟨j, hj, hji⟩ := h
    have := key pat hpat _ _ hj
    rw [List.length_drop] at this
    omega
  have h1 := keyFrom tagEnd (by decide) cl (b + 3) _ he
  have h2 := keyFrom tagBegin (by decide) cl (e + 6) _ hb
  omega

/-- The body of `read_cc_from_cmdline` from its initial
`begin = cmdline.find(tag_begin)`: no begin sentinel found means no tokens. -/
def ccTokensFrom (cl : List Char) (pos : Nat) : List (List Char) :=
  match findFrom tagBegin cl pos with
  | none => []
  | some b => ccLoop cl b

/-- `util.read_cc_from_cmdline(cmdline)`: collect the token of every
`cc: ... end_cc` block and join them with `'\n'.join(tokens)`. -/
def read_cc_from_cmdline (cmdline : String) : String :=
  String.mk (List.intercalate ['\n'] (ccTokensFrom cmdline.data 0))

/-- Split at the first occurrence of `pat`: the part strictly before it and
the part strictly after it. -/
def splitAtSub (pat s : List Char) : Option (List Char × List Char) :=
  match findIdx? pat s with
  | none => none
  | some i => some (s.take i, s.drop (i + pat.length))

/-- Reference description of the extractor's blocks, following the spec of
the command-line config extractor: scan left to right; each block runs from
immediately after a `cc:` begin sentinel to the next `end_cc` end sentinel
(or to end of string when none follows); within a block, leading whitespace
is trimmed and each literal backslash+n escape is decoded to a newline; the
scan resumes strictly after the end sentinel.  The fuel argument is a
technical bound on the number of blocks; `specBlocks` instantiates it so
that it can never run out (each block consumes at least the three-character
begin sentinel). -/
def specBlocksF : Nat → List Char → List (List Char)
  | 0, _ => []
  | fuel + 1, s =>
      match splitAtSub tagBegin s with
      | none => []
      | some (_, afterBegin) =>
          match splitAtSub tagEnd afterBegin with
          | none => [replEsc (lstripChars afterBegin)]
          | some (body, rest) => replEsc (lstripChars body) :: specBlocksF fuel rest

/-- The blocks of a command line, per the spec description. -/
def specBlocks (s : List Char) : List (List Char) := specBlocksF (s.length + 1) s

/-- `util.merge_base_cfg(cfgfile, cfg_builtin)`:

```python
syscfg = read_conf_with_confd(cfgfile)
kern_contents = read_cc_from_cmdline()
kerncfg = {}
if kern_contents:
    kerncfg = load_yaml(kern_contents, default={})
combined = mergedict(kerncfg, syscfg)
if cfg_builtin:
    fin = mergedict(combined, cfg_builtin)
else:
    fin = combined
return fin
```

`cfg_builtin=None` is modelled as `Val.null` (falsy, like the Python
default). -/
def merge_base_cfg (env : Env) (cfgfile : String) (cfg_builtin : Val) : Except CfgErr Val :=
  match read_conf_with_confd env cfgfile with
  | Except.error e => Except.error e
  | Except.ok syscfg =>
      let kern_contents := read_cc_from_cmdline env.cmdline
      let kerncfg : Val :=
        if kern_contents.isEmpty then Val.dict []
        else load_yaml env.yamlLoad kern_contents (Val.dict [])
      match mergedict kerncfg syscfg with
      | Except.error e => Except.error (CfgErr.merge e)
      | Except.ok combined =>
          if truthy cfg_builtin then
            match mergedict combined cfg_builtin with
            | Except.error e => Except.error (CfgErr.merge e)
            | Except.ok fin => Except.ok fin
          else Except.ok combined

/-! ## Seed resolution (`read_seeded`, `read_optional_seed`) -/

/-- Modelled from the spec: the error a fetch by `url_helper.readurl` (code
outside `src/`) can raise — a "not found" condition (`OSError` with
`errno.ENOENT`, the underlying source does not exist) distinguished from
any other I/O error. -/
inductive FetchErr where
  | enoent
  | other
deriving DecidableEq

/-- One call to the external fetch capability, as issued by
`read_file_or_url`: the (normalized) locator and the timeout/retry budget
passed along. -/
structure FetchCall where
  url : String
  timeout : Nat
  retries : Nat
deriving DecidableEq

/-- Modelled from the spec: the external fetch capability
`url_helper.readurl` (code outside `src/`) —
`fetch(locator, timeoutSeconds, maxRetries) -> (bytes, statusCode)`, which
may instead raise a fetch error. -/
def ReadUrl : Type := String → Nat → Nat → Except FetchErr (String × Nat)

/-- Modelled from the spec: `url_helper.ok_http_code` (code outside
`src/`) — a fetch is successful only with an acceptable, 2xx-equivalent,
status code. -/
def ok_http_code (status : Nat) : Bool := 200 ≤ status && status < 300

/-- Python `s.startswith(pre)`. -/
def strStartsWith (s pre : String) : Bool := pre.data.isPrefixOf s.data

/-- Python `s.find(pat) >= 0`. -/
def strHasSub (s pat : String) : Bool := (findIdx? pat.data s.data).isSome

/-- Python `fmt % arg` for a format string containing a single `"%s"`
placeholder (the documented shape of a templated seed base): the first
`"%s"` is replaced by `arg`.  When there is no placeholder the format
string is returned unchanged (`read_seeded` only formats after checking
`base.find("%s") >= 0`). -/
def pyFormat1 (fmt arg : String) : String :=
  match findIdx? "%s".data fmt.data with
  | none => fmt
  | some i => String.mk (fmt.data.take i ++ arg.data ++ fmt.data.drop (i + 2))

/-- A base locator is file-backed when it starts with `/` or `file://`
(before normalization; `norm_base` turns the former into the latter). -/
def fileBacked (base : String) : Bool :=
  strStartsWith base "/" || strStartsWith base "file://"

/-- The base normalization of `read_seeded`:
`if base.startswith("/"): base = "file://%s" % base`. -/
def norm_base (base : String) : String :=
  if strStartsWith base "/" then "file://" ++ base else base

/-- The locator construction of `read_seeded` for one of the two companion
names (`"meta-data"` or `"user-data"`): substitute into a `"%s"`
placeholder when the normalized base has one, otherwise concatenate
`base + name + ext`. -/
def seed_url (base ext name : String) : String :=
  let b := norm_base base
  if strHasSub b "%s" then pyFormat1 b (name ++ ext) else b ++ name ++ ext

/-- `util.read_file_or_url(url, timeout, retries, file_retries)`: prefix a
bare absolute path with `file://`, drop to the file retry budget for
`file://` locators, and fetch.  Returns the fetch outcome together with the
call that was issued. -/
def read_file_or_url (R : ReadUrl) (url : String) (timeout retries file_retries : Nat) :
    Except FetchErr (String × Nat) × FetchCall :=
  let url2 := if strStartsWith url "/" then "file://" ++ url else url
  let retries2 := if strStartsWith url2 "file://" then file_retries else retries
  (R url2 timeout retries2, ⟨url2, timeout, retries2⟩)

/-- `util.read_seeded(base, ext, timeout, retries=10, file_retries=0)`:
normalize the base, select the retry budget (file retries for a
file-backed base, network retries otherwise), build the two companion
locators, fetch `meta-data` first and then `user-data`.  Each result is
present only when the fetch returned non-empty content with an acceptable
status code; metadata is parsed by `load_yaml` with default `{}`,
user-data is kept as opaque content.  An exception raised by a fetch
propagates (so a failing metadata fetch means user-data is never fetched).
The second component is the trace of fetch calls, in order.  The Python
defaults `timeout=5, retries=10, file_retries=0` are applied at the call
site in `read_optional_seed`. -/
def read_seeded (R : ReadUrl) (yamlLoad : String → Option Val) (base ext : String)
    (timeout retries file_retries : Nat) :
    Except FetchErr (Option Val × Option String) × List FetchCall :=
  let b := norm_base base
  let retries2 := if strStartsWith b "file://" then file_retries else retries
  let ud_url := seed_url base ext "user-data"
  let md_url := seed_url base ext "meta-data"
  match read_file_or_url R md_url timeout retries2 file_retries with
  | (Except.error e, c1) => (Except.error e, [c1])
  | (Except.ok (md_str, msc), c1) =>
      let md : Option Val :=
        if !md_str.isEmpty && ok_http_code msc
        then some (load_yaml yamlLoad md_str (Val.dict [])) else none
      match read_file_or_url R ud_url timeout retries2 file_retries with
      | (Except.error e, c2) => (Except.error e, [c1, c2])
      | (Except.ok (ud_str, usc), c2) =>
          let ud : Option String :=
            if !ud_str.isEmpty && ok_http_code usc then some ud_str else none
          (Except.ok (md, ud), [c1, c2])

/-- The Python value stored into `fill['user-data']` (a string or `None`). -/
def udVal : Option String → Val
  | some s => Val.str s
  | none => Val.null

/-- The Python value stored into `fill['meta-data']` (a document or
`None`). -/
def mdVal : Option Val → Val
  | some v => v
  | none => Val.null

/-- `util.read_optional_seed(fill, base, ext, timeout)`:

```python
try:
    (md, ud) = read_seeded(base, ext, timeout)
    fill['user-data'] = ud
    fill['meta-data'] = md
    return True
except OSError as e:
    if e.errno == errno.ENOENT:
        return False
    raise
```

Modelled as returning the updated `fill` together with the boolean; a
re-raised non-`ENOENT` error stays an `Except.error`. -/
def read_optional_seed (R : ReadUrl) (yamlLoad : String → Option Val)
    (fill : List (String × Val)) (base ext : String) (timeout : Nat) :
    Except FetchErr (List (String × Val) × Bool) :=
  match (read_seeded R yamlLoad base ext timeout 10 0).1 with
  | Except.ok (md, ud) =>
      Except.ok (dSet (dSet fill "user-data" (udVal ud)) "meta-data" (mdVal md), true)
  | Except.error FetchErr.enoent => Except.ok (fill, false)
  | Except.error e => Except.error e

/-! ## Concrete environments used in the closed theorems below -/

/-- Environment for the resolution precedence scenario: system file
`{y: 2}`, one fragment `{z: 3}` in the default `<cfgfile>.d` directory,
kernel command line embedding `{x: 9}`. -/
def envPrec : Env where
  files := fun f =>
    if f = "/etc/cloud/cloud.cfg" then some "syscontent"
    else if f = "/etc/cloud/cloud.cfg.d/50-frag.cfg" then some "fragcontent"
    else none
  listdir := fun d => if d = "/etc/cloud/cloud.cfg.d" then ["50-frag.cfg"] else []
  isfile := fun f => f = "/etc/cloud/cloud.cfg.d/50-frag.cfg"
  isdir := fun d => d = "/etc/cloud/cloud.cfg.d"
  cmdline := "cc: x: 9 end_cc"
  yamlLoad := fun s =>
    if s = "syscontent" then some (Val.dict [("y", Val.int 2)])
    else if s = "fragcontent" then some (Val.dict [("z", Val.int 3)])
    else if s = "x: 9 " then some (Val.dict [("x", Val.int 9)])
    else none

/-- Environment with two fragment directories: `/cfg/dist.d` holds three
fragments setting distinct keys, `/cfg/same.d` holds two fragments setting
the same key `k` to different integers. -/
def envFrag : Env where
  files := fun f =>
    if f = "/cfg/same.d/10-a.cfg" then some "sA"
    else if f = "/cfg/same.d/20-b.cfg" then some "sB"
    else if f = "/cfg/dist.d/10-a.cfg" then some "dA"
    else if f = "/cfg/dist.d/20-b.cfg" then some "dB"
    else if f = "/cfg/dist.d/05-c.cfg" then some "dC"
    else none
  listdir := fun d =>
    if d = "/cfg/same.d" then ["10-a.cfg", "20-b.cfg"]
    else if d = "/cfg/dist.d" then ["10-a.cfg", "20-b.cfg", "05-c.cfg"]
    else []
  isfile := fun f =>
    f = "/cfg/same.d/10-a.cfg" || f = "/cfg/same.d/20-b.cfg" ||
    f = "/cfg/dist.d/10-a.cfg" || f = "/cfg/dist.d/20-b.cfg" ||
    f = "/cfg/dist.d/05-c.cfg"
  isdir := fun d => d = "/cfg/same.d" || d = "/cfg/dist.d"
  cmdline := ""
  yamlLoad := fun s =>
    if s = "sA" then some (Val.dict [("k", Val.int 1)])
    else if s = "sB" then some (Val.dict [("k", Val.int 2)])
    else if s = "dA" then some (Val.dict [("a", Val.int 1)])
    else if s = "dB" then some (Val.dict [("b", Val.int 2)])
    else if s = "dC" then some (Val.dict [("c", Val.int 3)])
    else none

/-- Environment whose system file parses to `{conf_d: 3}`: a present,
well-formed mapping layer whose `conf_d` value is a truthy non-string. -/
def envConfdInt : Env where
  files := fun f =>
    if f = "/etc/cloud/cloud.cfg" then some "has_confd"
    else if f = "/bad" then some "junk"
    else none
  listdir := fun _ => []
  isfile := fun _ => false
  isdir := fun _ => false
  cmdline := ""
  yamlLoad := fun s =>
    if s = "has_confd" then some (Val.dict [("conf_d", Val.int 3)]) else none

/-- Environment with no files, no directories, an empty command line and a
parser that always fails. -/
def envEmpty : Env where
  files := fun _ => none
  listdir := fun _ => []
  isfile := fun _ => false
  isdir := fun _ => false
  cmdline := ""
  yamlLoad := fun _ => none

/-- Fetcher that always answers with empty content and status 404. -/
def fetch404 : ReadUrl := fun _ _ _ => Except.ok ("", 404)

/-- Fetcher for a file-backed seed at `/seed/`: `meta-data` exists with
valid mapping content, `user-data` is missing (its fetch raises the
not-found error). -/
def fetchSeed : ReadUrl := fun url _ _ =>
  if url = "file:///seed/meta-data" then Except.ok ("a: 1", 200)
  else Except.error FetchErr.enoent

/-- Parser for the seed scenario: `"a: 1"` is the mapping `{a: 1}`. -/
def yamlSeed : String → Option Val := fun s =>
  if s = "a: 1" then some (Val.dict [("a", Val.int 1)]) else none

/-- A fetcher that always succeeds with mapping-parseable content. -/
def fetchOk : ReadUrl := fun _ _ _ => Except.ok ("a: 1", 200)

/-! ## Helper lemmas -/

theorem dGet_dSet_ne (d : List (String × Val)) (k k2 : String) (v : Val)
    (h : k2 ≠ k) : dGet (dSet d k v) k2 = dGet d k2 := by
  induction d with
  | nil => simp [dGet, dSet, Ne.symm h]
  | cons p rest ih =>
      obtain ⟨k3, v3⟩ := p
      by_cases hk : k3 = k
      · subst hk
        simp [dGet, dSet, Ne.symm h]
      · simp only [dSet, if_neg hk]
        by_cases hk2 : k3 = k2 <;> simp [dGet, hk2, ih]

theorem mergedict_empty_cand (ds : List (String × Val)) :
    mergedict (Val.dict ds) (Val.dict []) = Except.ok (Val.dict ds) := by
  simp [mergedict, mergeItems, Except.map]

theorem findIdx_lt (pat : List Char) (hpat : pat.isEmpty = false) :
    ∀ (s : List Char) (i : Nat), findIdx? pat s = some i → i < s.length := by
  intro s
  induction s with
  | nil => intro i h; simp [findIdx?, hpat] at h
  | cons c rest ih =>
      intro i h
      rw [findIdx?] at h
      split at h
      · injection h with h
        simp only [List.length_cons]
        omega
      · cases hfi : findIdx? pat rest with
        | none => rw [hfi] at h; simp [Option.map] at h
        | some j =>
            rw [hfi] at h
            simp only [Option.map, Option.some.injEq] at h
            have := ih j hfi
            simp only [List.length_cons]
            omega

theorem findIdx_drop (pat : List Char) :
    ∀ (s : List Char) (i : Nat), findIdx? pat s = some i →
      pat.isPrefixOf (s.drop i) = true := by
  intro s
  induction s with
  | nil =>
      intro i h
      rw [findIdx?] at h
      split at h
      · injection h with h
        subst h
        simp_all [List.isEmpty_iff, List.isPrefixOf]
      · exact absurd h (by simp)
  | cons c rest ih =>
      intro i h
      rw [findIdx?] at h
      split at h
      · injection h with h
        subst h
        simpa using ‹pat.isPrefixOf (c :: rest) = true›
      · cases hfi : findIdx? pat rest with
        | none => rw [hfi] at h; simp [Option.map] at h
        | some j =>
            rw [hfi] at h
            simp only [Option.map, Option.some.injEq] at h
            subst h
            simpa using ih j hfi

/-- Core correspondence: the index-based find/slice loop of
`read_cc_from_cmdline` computes, from any scan position, exactly the blocks
of the remaining suffix as described by `specBlocksF` (with any sufficient
fuel). -/
theorem ccTokensFrom_eq_specBlocksF :
    ∀ (fuel : Nat) (cl : List Char) (j : Nat), cl.length - j < fuel →
      ccTokensFrom cl j = specBlocksF fuel (cl.drop j) := by
  intro fuel
  induction fuel with
  | zero => intro cl j h; omega
  | succ n ih =>
      intro cl j h
      rw [ccTokensFrom, specBlocksF]
      cases hfi : findIdx? tagBegin (cl.drop j) with
      | none => simp [findFrom, splitAtSub, hfi]
      | some i =>
          have hi : i < cl.length - j := by
            have := findIdx_lt tagBegin (by decide) _ _ hfi
            simpa [List.length_drop] using this
          have hffb : findFrom tagBegin cl j = some (i + j) := by
            simp [findFrom, hfi]
          have hsplit : splitAtSub tagBegin (cl.drop j)
              = some ((cl.drop j).take i, cl.drop (i + j + 3)) := by
            simp only [splitAtSub, hfi]
            have h3 : tagBegin.length = 3 := by decide
            rw [h3, List.drop_drop]
            have : j + (i + 3) = i + j + 3 := by omega
            rw [this]
          rw [hffb, hsplit]
          dsimp only
          rw [ccLoop.eq_def]
          cases hfe : findIdx? tagEnd (cl.drop (i + j + 3)) with
          | none =>
              have h1 : findFrom tagEnd cl (i + j + 3) = none := by
                simp [findFrom, hfe]
              have h2 : splitAtSub tagEnd (cl.drop (i + j + 3)) = none := by
                simp [splitAtSub, hfe]
              rw [h1, h2]
              dsimp only
              have htake : (cl.drop (i + j + 3)).take (cl.length - (i + j + 3))
                  = cl.drop (i + j + 3) := by
                have hlen : (cl.drop (i + j + 3)).length = cl.length - (i + j + 3) :=
                  List.length_drop _ _
                rw [← hlen, List.take_length]
              rw [htake]
          | some i2 =>
              have h1 : findFrom tagEnd cl (i + j + 3) = some (i2 + (i + j + 3)) := by
                simp [findFrom, hfe]
              have h2 : splitAtSub tagEnd (cl.drop (i + j + 3))
                  = some ((cl.drop (i + j + 3)).take i2, cl.drop (i + j + 3 + (i2 + 6))) := by
                simp only [splitAtSub, hfe]
                have h6 : tagEnd.length = 6 := by decide
                rw [h6, List.drop_drop]
              rw [h1, h2]
              dsimp only
              have htok : i2 + (i + j + 3) - (i + j + 3) = i2 := by omega
              rw [htok]
              have hrec : ccTokensFrom cl (i + j + 3 + (i2 + 6))
                  = specBlocksF n (cl.drop (i + j + 3 + (i2 + 6))) := by
                apply ih
                omega
              rw [ccTokensFrom] at hrec
              have harg : i2 + (i + j + 3) + 6 = i + j + 3 + (i2 + 6) := by omega
              rw [harg]
              cases hfb2 : findFrom tagBegin cl (i + j + 3 + (i2 + 6)) with
              | none => rw [hfb2] at hrec; rw [← hrec]
              | some b2 => rw [hfb2] at hrec; rw [← hrec]

/-- `read_cc_from_cmdline` returns exactly the newline-join of the blocks
described by `specBlocks`. -/
theorem read_cc_eq_spec (cmdline : String) :
    read_cc_from_cmdline cmdline
      = String.mk (List.intercalate ['\n'] (specBlocks cmdline.data)) := by
  rw [read_cc_from_cmdline, specBlocks]
  congr 1
  have := ccTokensFrom_eq_specBlocksF (cmdline.data.length + 1) cmdline.data 0 (by omega)
  rw [List.drop_zero] at this
  exact congrArg (List.intercalate ['\n']) this

/-! ## String lemmas for the seed locators -/

theorem str_data_append (a b : String) : (a ++ b).data = a.data ++ b.data := by
  cases a
  cases b
  rfl

theorem strStartsWith_iff (s pre : String) :
    strStartsWith s pre = true ↔ pre.data <+: s.data := by
  rw [strStartsWith]
  exact List.isPrefixOf_iff_prefix

/-- If `a ++ t` is a word containing no `c`, and `t` is a prefix of a word
starting with `c`, then `t` is empty: `a` is the whole word. -/
theorem append_suffix_whole (p a t : List Char) (c : Char) (cs : List Char)
    (h : a ++ t = p) (ht : t <+: c :: cs) (hnot : c ∉ p) : a = p := by
  cases t with
  | nil => simpa using h
  | cons d t' =>
      have hdc : d = c := (( List.cons_prefix_cons).mp ht).1
      have hdp : d ∈ p := by
        rw [← h]
        exact List.mem_append_right a (List.mem_cons_self d t')
      rw [hdc] at hdp
      exact absurd hdp hnot

/-- A word `p` avoiding the character `c` is no prefix of `T ++ X` when `T`
is a prefix of a word `b0` that `p` does not prefix, and `X` starts with
`c`. -/
theorem not_prefix_append_cons (p b0 T X : List Char) (c : Char) (cs : List Char)
    (hT : T <+: b0) (hp : ¬ p <+: b0) (hX : X = c :: cs) (hnot : c ∉ p) :
    ¬ p <+: T ++ X := by
  intro h
  rcases List.prefix_or_prefix_of_prefix h (List.prefix_append T X) with hpT | hTp
  · exact hp (hpT.trans hT)
  · obtain ⟨t, ht⟩ := hTp
    have htX : t <+: X := by
      have h2 : T ++ t <+: T ++ X := by rw [ht]; exact h
      exact ( List.prefix_append_right_inj T).mp h2
    subst hX
    have hTeq : T = p := append_suffix_whole p T t c cs ht htX hnot
    exact hp (hTeq ▸ hT)

/-- A normalized base never starts with a bare `/` (the normalization
rewrote any such base to a `file://` locator). -/
theorem norm_base_not_slash (base : String) :
    strStartsWith (norm_base base) "/" = false := by
  rw [norm_base]
  cases h : strStartsWith base "/" with
  | true =>
      simp only [h, if_true]
      rw [strStartsWith, str_data_append]
      rfl
  | false => simp [h]

/-- A normalized base starts with `file://` exactly when the original base
was file-backed. -/
theorem strStartsWith_norm_base (base : String) :
    strStartsWith (norm_base base) "file://" = fileBacked base := by
  rw [norm_base, fileBacked]
  cases h : strStartsWith base "/" with
  | true =>
      simp only [h, if_true, Bool.true_or]
      rw [strStartsWith, str_data_append]
      exact ( List.isPrefixOf_iff_prefix).mpr (List.prefix_append _ _)
  | false => simp [h]

theorem meta_name_cons (ext : String) :
    ("meta-data" ++ ext).data = 'm' :: ("eta-data".data ++ ext.data) := by
  rw [str_data_append]
  rfl

theorem user_name_cons (ext : String) :
    ("user-data" ++ ext).data = 'u' :: ("ser-data".data ++ ext.data) := by
  rw [str_data_append]
  rfl

/-- A sentinel word `p` avoiding the first character of `name ++ ext` that
does not prefix the normalized base does not prefix the derived seed
locator either (both in the placeholder-substitution branch and in the
concatenation branch). -/
theorem seed_url_no_prefix (p base ext name : String) (c : Char) (cs : List Char)
    (hn : (name ++ ext).data = c :: cs) (hnot : c ∉ p.data)
    (hb : strStartsWith (norm_base base) p = false) :
    strStartsWith (seed_url base ext name) p = false := by
  have hbP : ¬ (p.data <+: (norm_base base).data) := by
    intro hpre
    have h2 := (strStartsWith_iff _ _).mpr hpre
    rw [hb] at h2
    exact absurd h2 (by decide)
  rw [Bool.eq_false_iff]
  intro htrue
  have hpre := (strStartsWith_iff _ _).mp htrue
  rw [seed_url] at hpre
  split at hpre
  · next hs =>
      have hex : ∃ i, findIdx? "%s".data (norm_base base).data = some i := by
        rw [strHasSub] at hs
        exact Option.isSome_iff_exists.mp hs
      obtain ⟨i, hi⟩ := hex
      rw [pyFormat1, hi] at hpre
      dsimp only at hpre
      rw [List.append_assoc] at hpre
      have hTpre := List.take_prefix i (norm_base base).data
      have hXc : (name ++ ext).data ++ (norm_base base).data.drop (i + 2)
          = c :: (cs ++ (norm_base base).data.drop (i + 2)) := by
        rw [hn]
        rfl
      exact not_prefix_append_cons p.data (norm_base base).data
        ((norm_base base).data.take i)
        ((name ++ ext).data ++ (norm_base base).data.drop (i + 2)) c
        (cs ++ (norm_base base).data.drop (i + 2)) hTpre hbP hXc hnot hpre
  · next hs =>
      have hdata : ((norm_base base) ++ name ++ ext).data
          = (norm_base base).data ++ (name ++ ext).data := by
        simp only [str_data_append, List.append_assoc]
      rw [hdata] at hpre
      exact not_prefix_append_cons p.data (norm_base base).data (norm_base base).data
        ((name ++ ext).data) c cs (List.prefix_refl _) hbP hn hnot hpre

/-- For a file-backed base, both derived seed locators start with
`file://`. -/
theorem seed_url_starts_file (base ext name : String)
    (hb : strStartsWith (norm_base base) "file://" = true) :
    strStartsWith (seed_url base ext name) "file://" = true := by
  have hbP : "file://".data <+: (norm_base base).data := (strStartsWith_iff _ _).mp hb
  obtain ⟨r, hr⟩ := hbP
  rw [seed_url]
  split
  · next hs =>
      have hex : ∃ i, findIdx? "%s".data (norm_base base).data = some i := by
        rw [strHasSub] at hs
        exact Option.isSome_iff_exists.mp hs
      obtain ⟨i, hi⟩ := hex
      rw [pyFormat1, hi]
      dsimp only
      rw [strStartsWith]
      have hge : 7 ≤ i := by
        by_contra hlt
        push_neg at hlt
        have hpd : ("%s".data).isPrefixOf ((norm_base base).data.drop i) = true :=
          findIdx_drop _ _ _ hi
        rw [← hr, List.drop_append_of_le_length (by simp; omega)] at hpd
        cases hdrop : ("file://".data).drop i with
        | nil =>
            have hlen : ("file://".data).length ≤ i := List.drop_eq_nil_iff.mp hdrop
            simp at hlen
            omega
        | cons d rest' =>
            rw [hdrop, List.cons_append] at hpd
            simp only [List.isPrefixOf, Bool.and_eq_true, beq_iff_eq] at hpd
            have hd : d = '%' := hpd.1.symm
            have hdm : d ∈ ("file://".data) :=
              List.drop_subset i _ (by rw [hdrop]; exact List.mem_cons_self _ _)
            rw [hd] at hdm
            exact absurd hdm (by decide)
      have h7 : ("file://".data).length = 7 := rfl
      have htake : ((norm_base base).data).take i = "file://".data ++ r.take (i - 7) := by
        rw [← hr, List.take_append_eq_append_take]
        rw [List.take_of_length_le (by rw [h7]; omega), h7]
      rw [htake]
      simp only [List.append_assoc]
      exact ( List.isPrefixOf_iff_prefix).mpr (List.prefix_append _ _)
  · next hs =>
      rw [strStartsWith]
      simp only [str_data_append, List.append_assoc]
      refine ( List.isPrefixOf_iff_prefix).mpr (List.IsPrefix.trans ⟨r, hr⟩ ?_)
      exact List.prefix_append _ _

/-- Neither seed locator (for the names `meta-data`, `user-data`) starts
with a bare `/`. -/
theorem seed_url_not_slash (base ext name : String) (c : Char) (cs : List Char)
    (hn : (name ++ ext).data = c :: cs) (hnot : c ∉ ("/" : String).data) :
    strStartsWith (seed_url base ext name) "/" = false :=
  seed_url_no_prefix "/" base ext name c cs hn hnot (norm_base_not_slash base)

/-- A seed locator starts with `file://` exactly when the base is
file-backed. -/
theorem seed_url_file_eq (base ext name : String) (c : Char) (cs : List Char)
    (hn : (name ++ ext).data = c :: cs) (hnot : c ∉ ("file://" : String).data) :
    strStartsWith (seed_url base ext name) "file://" = fileBacked base := by
  cases hfb : fileBacked base with
  | true =>
      exact seed_url_starts_file base ext name (by rw [strStartsWith_norm_base, hfb])
  | false =>
      exact seed_url_no_prefix "file://" base ext name c cs hn hnot
        (by rw [strStartsWith_norm_base, hfb])

/-- On a locator that does not start with `/`, `read_file_or_url` fetches
that very locator, only swapping in the file retry budget for `file://`
locators. -/
theorem read_file_or_url_eq (R : ReadUrl) (url : String) (t retries fr : Nat)
    (hslash : strStartsWith url "/" = false) :
    read_file_or_url R url t retries fr
      = (R url t (if strStartsWith url "file://" then fr else retries),
         ⟨url, t, if strStartsWith url "file://" then fr else retries⟩) := by
  rw [read_file_or_url]
  simp [hslash]

/-! ## Claim theorems -/

/-- C1 (code-bug evaluation): merging the mappings `A = {"a": 1}` and
`B = {"a": 2}` — both documents are mappings, and the claim (like the
function's own docstring, "If src has a key cand will not override")
promises the result `{"a": 1}` — instead raises
`TypeError("Attempting to merge a non dictionary source type: int")`,
because every key collision recurses and the recursive call on the two
colliding non-dict values hits the raise branch. -/
theorem mergedict_scalar_collision_raises :
    mergedict (Val.dict [("a", Val.int 1)]) (Val.dict [("a", Val.int 2)])
      = Except.error ⟨MergeSide.src, "int"⟩ := by
  simp [mergedict, mergeItems, dGet, isDict, obj_name, Except.map]

/-- C2 (code-bug evaluation): the spec's precedence scenario — built-in
defaults `{x: 1, y: 1}`, system file `{y: 2}`, one fragment `{z: 3}`,
kernel command line `cc: x: 9 end_cc` — does not resolve to
`{x: 9, y: 2, z: 3}`: folding the built-in defaults under the combined
document collides `x: 9` with `x: 1` (and `y: 2` with `y: 1`), two non-dict
values, so `mergedict` raises `TypeError(... source type: int)` instead of
letting the higher-precedence value win. -/
theorem merge_base_cfg_precedence_scenario :
    merge_base_cfg envPrec "/etc/cloud/cloud.cfg"
        (Val.dict [("x", Val.int 1), ("y", Val.int 1)])
      = Except.error (CfgErr.merge ⟨MergeSide.src, "int"⟩) := by
  have hcc : read_cc_from_cmdline "cc: x: 9 end_cc" = "x: 9 " :=
    (read_cc_eq_spec _).trans (by rfl)
  simp [merge_base_cfg, envPrec, read_conf_with_confd, read_conf, load_yaml, isDict, dGet,
        mergeWithConfd, read_conf_d, sortDesc, insertDesc, strGt, strEndsWith, joinPath,
        foldConfs, hcc, mergedict, mergeItems, dSet, truthy, obj_name, Except.map, pstrip,
        show ("x: 9 " : String).isEmpty = false from by decide,
        show ("/etc/cloud/cloud.cfg.d" : String).isEmpty = false from by decide]

/-- C3: `mergedict` fails with a `TypeError` whenever exactly one operand is
a mapping, the error blaming the non-mapping side — the target (`src`,
message "... source type: <t>") or the merge source (`cand`, message
"... candidate type: <t>") — together with that operand's resolved type
name; and an error produced at a nested collision propagates unchanged, so
the same holds at any recursion level. -/
theorem mergedict_type_mismatch_error :
    (∀ s c : Val, isDict s = true → isDict c = false →
        mergedict s c = Except.error ⟨MergeSide.cand, obj_name c⟩) ∧
    (∀ s c : Val, isDict s = false → isDict c = true →
        mergedict s c = Except.error ⟨MergeSide.src, obj_name s⟩) ∧
    (∀ (k : String) (sv cv : Val) (e : MergeErr), mergedict sv cv = Except.error e →
        mergedict (Val.dict [(k, sv)]) (Val.dict [(k, cv)]) = Except.error e) := by
  refine ⟨?_, ?_, ?_⟩
  · intro s c hs hc
    cases s <;> cases c <;> simp_all [mergedict, isDict, obj_name]
  · intro s c hs hc
    cases s <;> cases c <;> simp_all [mergedict, isDict, obj_name]
  · intro k sv cv e h
    simp [mergedict, mergeItems, dGet, h, Except.map]

/-- Witness for C3 at concrete inputs: a dict target with an int source, a
str target with a dict source, and a nested dict-vs-int mismatch one
recursion level down. -/
theorem mergedict_type_mismatch_error_witness :
    mergedict (Val.dict []) (Val.int 5) = Except.error ⟨MergeSide.cand, "int"⟩ ∧
    mergedict (Val.str "s") (Val.dict []) = Except.error ⟨MergeSide.src, "str"⟩ ∧
    mergedict (Val.dict [("a", Val.dict [])]) (Val.dict [("a", Val.int 7)])
      = Except.error ⟨MergeSide.cand, "int"⟩ :=
  ⟨mergedict_type_mismatch_error.1 (Val.dict []) (Val.int 5) rfl rfl,
   mergedict_type_mismatch_error.2.1 (Val.str "s") (Val.dict []) rfl rfl,
   mergedict_type_mismatch_error.2.2 "a" (Val.dict []) (Val.int 7) _
     (mergedict_type_mismatch_error.1 (Val.dict []) (Val.int 7) rfl rfl)⟩

/-- C4 (code-bug evaluation): `read_conf_d` does select exactly the
".cfg" regular files and folds them in reverse lexicographic order — with
fragments `10-a.cfg = {a: 1}`, `20-b.cfg = {b: 2}`, `05-c.cfg = {c: 3}`
setting distinct keys all three appear — but when two fragments
(`10-a.cfg = {k: 1}`, `20-b.cfg = {k: 2}`) set the same key, the
lexicographically larger one does not win as claimed (and as the source's
own "later trumps newer" comment intends): the fold raises
`TypeError(... source type: int)` on the collision. -/
theorem read_conf_d_folding :
    read_conf_d envFrag "/cfg/dist.d"
        = Except.ok (Val.dict [("b", Val.int 2), ("a", Val.int 1), ("c", Val.int 3)]) ∧
    read_conf_d envFrag "/cfg/same.d" = Except.error ⟨MergeSide.src, "int"⟩ := by
  constructor <;>
    simp [read_conf_d, envFrag, sortDesc, insertDesc, strGt, strEndsWith, joinPath,
          foldConfs, read_conf, load_yaml, isDict, mergedict, mergeItems, dGet, dSet,
          Except.map, obj_name]

/-- C5 (counterexample): a present system file that parses cleanly to the
mapping `{conf_d: 3}` — not a missing layer, not a malformed layer, and no
merge is ever attempted — makes `read_conf_with_confd` raise the `conf_d`
type `TypeError`, so resolution can raise on something other than a
structurally invalid merge attempt. -/
theorem read_conf_with_confd_nonmerge_raise :
    read_conf_with_confd envConfdInt "/etc/cloud/cloud.cfg"
      = Except.error (CfgErr.confdType "/etc/cloud/cloud.cfg" "int") := rfl

/-- C5 (amended): an absent source file contributes `{}`; a source file
whose content fails to parse contributes `{}`; a bad fragment contributes
`{}` and merging `{}` never aborts the fold; and the only errors
configuration resolution can raise are `mergedict` type-mismatch errors or
the `TypeError` for a truthy non-string `conf_d` value in the system
file. -/
theorem config_resolution_error_policy :
    (∀ (env : Env) (f : String), env.files f = none → read_conf env f = Val.dict []) ∧
    (∀ (env : Env) (f c : String), env.files f = some c → env.yamlLoad c = none →
        read_conf env f = Val.dict []) ∧
    (∀ ds : List (String × Val),
        mergedict (Val.dict ds) (Val.dict []) = Except.ok (Val.dict ds)) ∧
    (∀ (env : Env) (f : String) (b : Val) (e : CfgErr),
        merge_base_cfg env f b = Except.error e →
        (∃ m, e = CfgErr.merge m) ∨ ∃ s t, e = CfgErr.confdType s t) := by
  refine ⟨?_, ?_, mergedict_empty_cand, ?_⟩
  · intro env f h
    simp [read_conf, h]
  · intro env f c h hy
    simp [read_conf, h, load_yaml, hy]
  · intro env f b e _
    cases e with
    | merge m => exact Or.inl ⟨m, rfl⟩
    | confdType s t => exact Or.inr ⟨s, t, rfl⟩

/-- Witness for C5's amended theorem: the absent-file case on the empty
environment, and the unparseable-file case on `/bad` (content `"junk"`,
which the parser rejects). -/
theorem config_resolution_error_policy_witness :
    read_conf envEmpty "/x" = Val.dict [] ∧ read_conf envConfdInt "/bad" = Val.dict [] :=
  ⟨config_resolution_error_policy.1 envEmpty "/x" rfl,
   config_resolution_error_policy.2.1 envConfdInt "/bad" "junk" rfl rfl⟩

/-- C6 (counterexample): `extract("cc:\nssh_import_id: [bob]\nend_cc")`
yields `"ssh_import_id: [bob]\n"` — the trailing newline before the end
sentinel survives, because the source only `lstrip`s each block — and not
the claimed `"ssh_import_id: [bob]"`. -/
theorem read_cc_example_not_stripped :
    read_cc_from_cmdline "cc:\nssh_import_id: [bob]\nend_cc" = "ssh_import_id: [bob]\n" ∧
    read_cc_from_cmdline "cc:\nssh_import_id: [bob]\nend_cc" ≠ "ssh_import_id: [bob]" :=
  ⟨(read_cc_eq_spec _).trans (by rfl),
   fun h => by
     have h2 : ("ssh_import_id: [bob]\n" : String) = "ssh_import_id: [bob]" :=
       ((read_cc_eq_spec _).trans (by rfl)).symm.trans h
     exact absurd h2 (by decide)⟩

/-- C6 (amended): for every command-line string the extractor returns the
bodies of all embedded blocks joined by newline separators in left-to-right
encounter order — each block running from immediately after a `cc:`
begin sentinel to the next `end_cc` end sentinel (or end of string), with
LEADING whitespace trimmed (trailing whitespace kept) and each literal
backslash+n escape decoded to a real newline (`specBlocks`); in particular
the documented example yields `"ssh_import_id: [bob]\n"`, with its trailing
newline. -/
theorem read_cc_blocks_amended :
    (∀ cmdline : String, read_cc_from_cmdline cmdline
        = String.mk (List.intercalate ['\n'] (specBlocks cmdline.data))) ∧
    read_cc_from_cmdline "cc:\nssh_import_id: [bob]\nend_cc" = "ssh_import_id: [bob]\n" :=
  ⟨read_cc_eq_spec, (read_cc_eq_spec _).trans (by rfl)⟩

/-- C10: the sentinels are matched as raw substrings at any position, not
at token boundaries: a command line with no `cc:` substring at all yields
the empty string, and an occurrence of `cc:` embedded inside the longer
token `xyzcc:foo` starts a block, yielding `foo`. -/
theorem read_cc_raw_substring :
    (∀ cmdline : String, findIdx? tagBegin cmdline.data = none →
        read_cc_from_cmdline cmdline = "") ∧
    read_cc_from_cmdline "xyzcc:foo" = "foo" := by
  constructor
  · intro cmdline h
    rw [read_cc_from_cmdline, ccTokensFrom]
    rw [show findFrom tagBegin cmdline.data 0 = none by
          simp [findFrom, List.drop_zero, h]]
    exact rfl
  · exact (read_cc_eq_spec _).trans (by rfl)

/-- Witness for C10 on the command line `"ab"`, which contains no `cc:`. -/
theorem read_cc_raw_substring_witness :
    findIdx? tagBegin "ab".data = none ∧ read_cc_from_cmdline "ab" = "" :=
  ⟨rfl, read_cc_raw_substring.1 "ab" rfl⟩

/-- C9: whenever `read_optional_seed` returns `false` the `fill` dictionary
is returned completely unchanged, and whenever it returns `true` every key
other than `"user-data"` and `"meta-data"` still maps to its original
value (only those two keys are assigned, possibly to the absent value
`None`). -/
theorem read_optional_seed_fill_effect :
    ∀ (R : ReadUrl) (y : String → Option Val) (fill : List (String × Val))
      (base ext : String) (t : Nat) (fl : List (String × Val)) (flag : Bool),
      read_optional_seed R y fill base ext t = Except.ok (fl, flag) →
      (flag = false → fl = fill) ∧
      (flag = true → ∀ k : String, k ≠ "user-data" → k ≠ "meta-data" →
          dGet fl k = dGet fill k) := by
  intro R y fill base ext t fl flag h
  rw [read_optional_seed] at h
  cases hs : (read_seeded R y base ext t 10 0).1 with
  | ok p =>
      obtain ⟨md, ud⟩ := p
      rw [hs] at h
      dsimp only at h
      injection h with h
      injection h with h1 h2
      constructor
      · intro hfalse
        rw [hfalse] at h2
        exact absurd h2 (by decide)
      · intro _ k hk1 hk2
        rw [← h1, dGet_dSet_ne _ _ _ _ hk2, dGet_dSet_ne _ _ _ _ hk1]
  | error e =>
      rw [hs] at h
      cases e with
      | enoent =>
          dsimp only at h
          injection h with h
          injection h with h1 h2
          constructor
          · intro _
            exact h1.symm
          · intro htrue
            rw [htrue] at h2
            exact absurd h2 (by decide)
      | other => exact absurd h (by simp)

/-- Witness for C9: a `fill` holding an unrelated key `"x"` keeps it intact
through a successful (`true`) call. -/
theorem read_optional_seed_fill_effect_witness :
    dGet [("x", Val.int 1), ("user-data", Val.null), ("meta-data", Val.null)] "x"
      = dGet [("x", Val.int 1)] "x" :=
  (read_optional_seed_fill_effect fetch404 yamlSeed [("x", Val.int 1)] "" "" 5
      [("x", Val.int 1), ("user-data", Val.null), ("meta-data", Val.null)] true rfl).2
    rfl "x" (by decide) (by decide)

/-- C8 (counterexample): (i) with a fetcher answering status 404 with empty
content, neither metadata nor user-data is retrieved, yet
`read_optional_seed` reports overall success `true` (storing two absent
values); (ii) in the claim's own scenario — file-backed base `/seed/`,
existing valid `meta-data`, missing `user-data` whose fetch raises
not-found — the result is `(fill unchanged, false)`: success is `false`
as claimed but no metadata document is yielded, because the `ENOENT`
raised inside `read_seeded` aborts it before anything is stored. -/
theorem read_optional_seed_claim_fails :
    read_optional_seed fetch404 yamlSeed [] "" "" 5
        = Except.ok ([("user-data", Val.null), ("meta-data", Val.null)], true) ∧
    read_optional_seed fetchSeed yamlSeed [] "/seed/" "" 5 = Except.ok ([], false) :=
  ⟨rfl, rfl⟩

/-- C8 (amended): `read_optional_seed` reports `true` exactly when
`read_seeded` completes without raising — even when metadata or user-data
(or both) are absent — in which case it stores the two possibly-absent
values into `fill`; a not-found error raised by either fetch surfaces as
`false` with `fill` left unchanged (so no metadata is yielded); in
particular the file-backed scenario with an existing `meta-data` and a
missing `user-data` returns `false` and an unchanged `fill`. -/
theorem read_optional_seed_amended :
    (∀ (R : ReadUrl) (y : String → Option Val) (fill : List (String × Val))
        (base ext : String) (t : Nat) (md : Option Val) (ud : Option String),
        (read_seeded R y base ext t 10 0).1 = Except.ok (md, ud) →
        read_optional_seed R y fill base ext t
          = Except.ok (dSet (dSet fill "user-data" (udVal ud)) "meta-data" (mdVal md),
              true)) ∧
    (∀ (R : ReadUrl) (y : String → Option Val) (fill : List (String × Val))
        (base ext : String) (t : Nat),
        (read_seeded R y base ext t 10 0).1 = Except.error FetchErr.enoent →
        read_optional_seed R y fill base ext t = Except.ok (fill, false)) ∧
    read_optional_seed fetchSeed yamlSeed [] "/seed/" "" 5 = Except.ok ([], false) := by
  refine ⟨?_, ?_, rfl⟩
  · intro R y fill base ext t md ud h
    rw [read_optional_seed, h]
  · intro R y fill base ext t h
    rw [read_optional_seed, h]

/-- Witness for C8's amended theorem: the 404 environment completes without
raising and reports `true` with two absent values; the file-backed scenario
raises not-found on `user-data` and reports `false` with `fill`
unchanged. -/
theorem read_optional_seed_amended_witness :
    read_optional_seed fetch404 yamlSeed [] "" "" 5
        = Except.ok ([("user-data", Val.null), ("meta-data", Val.null)], true) ∧
    read_optional_seed fetchSeed yamlSeed [("q", Val.int 7)] "/seed/" "" 5
        = Except.ok ([("q", Val.int 7)], false) :=
  ⟨read_optional_seed_amended.1 fetch404 yamlSeed [] "" "" 5 none none rfl,
   read_optional_seed_amended.2.1 fetchSeed yamlSeed [("q", Val.int 7)] "/seed/" "" 5 rfl⟩

/-- C7: for every base locator, `read_seeded` fetches the `meta-data`
locator first and then the `user-data` locator (on a metadata fetch error
the user-data fetch never happens), each call carrying the given timeout
and the retry budget selected by file-backedness of the base — the file
budget when the normalized base starts with `file://` (equivalently, the
raw base starts with `/` or `file://`), the network budget otherwise; when
it completes, each element of the pair is present exactly when its fetch
returned non-empty content with an acceptable (2xx) status code, present
metadata being the `load_yaml` parse with default `{}` and user-data the
fetched content itself, never parsed.  (The Python defaults are
`retries=10`, `file_retries=0`.) -/
theorem read_seeded_budget_order_presence :
    ∀ (R : ReadUrl) (y : String → Option Val) (base ext : String) (t r fr : Nat),
      ((read_seeded R y base ext t r fr).2
          = [⟨seed_url base ext "meta-data", t, if fileBacked base then fr else r⟩,
             ⟨seed_url base ext "user-data", t, if fileBacked base then fr else r⟩] ∨
        ((read_seeded R y base ext t r fr).2
            = [⟨seed_url base ext "meta-data", t, if fileBacked base then fr else r⟩] ∧
          ∃ e, (read_seeded R y base ext t r fr).1 = Except.error e ∧
            R (seed_url base ext "meta-data") t (if fileBacked base then fr else r)
              = Except.error e)) ∧
      (∀ (md : Option Val) (ud : Option String) (mc : String) (msc : Nat)
          (uc : String) (usc : Nat),
        (read_seeded R y base ext t r fr).1 = Except.ok (md, ud) →
        R (seed_url base ext "meta-data") t (if fileBacked base then fr else r)
            = Except.ok (mc, msc) →
        R (seed_url base ext "user-data") t (if fileBacked base then fr else r)
            = Except.ok (uc, usc) →
        md = (if !mc.isEmpty && ok_http_code msc
              then some (load_yaml y mc (Val.dict [])) else none) ∧
        ud = (if !uc.isEmpty && ok_http_code usc then some uc else none)) := by
  intro R y base ext t r fr
  have hmd_slash : strStartsWith (seed_url base ext "meta-data") "/" = false :=
    seed_url_not_slash base ext "meta-data" 'm' _ (meta_name_cons ext) (by decide)
  have hud_slash : strStartsWith (seed_url base ext "user-data") "/" = false :=
    seed_url_not_slash base ext "user-data" 'u' _ (user_name_cons ext) (by decide)
  have hmd_file : strStartsWith (seed_url base ext "meta-data") "file://" = fileBacked base :=
    seed_url_file_eq base ext "meta-data" 'm' _ (meta_name_cons ext) (by decide)
  have hud_file : strStartsWith (seed_url base ext "user-data") "file://" = fileBacked base :=
    seed_url_file_eq base ext "user-data" 'u' _ (user_name_cons ext) (by decide)
  have hsel : (if fileBacked base then fr else r)
      = (if strStartsWith (norm_base base) "file://" then fr else r) := by
    rw [strStartsWith_norm_base]
  have hrf_md : read_file_or_url R (seed_url base ext "meta-data") t
        (if strStartsWith (norm_base base) "file://" then fr else r) fr
      = (R (seed_url base ext "meta-data") t (if fileBacked base then fr else r),
         ⟨seed_url base ext "meta-data", t, if fileBacked base then fr else r⟩) := by
    rw [read_file_or_url_eq R _ t _ fr hmd_slash, hmd_file, ← hsel]
    cases fileBacked base <;> simp
  have hrf_ud : read_file_or_url R (seed_url base ext "user-data") t
        (if strStartsWith (norm_base base) "file://" then fr else r) fr
      = (R (seed_url base ext "user-data") t (if fileBacked base then fr else r),
         ⟨seed_url base ext "user-data", t, if fileBacked base then fr else r⟩) := by
    rw [read_file_or_url_eq R _ t _ fr hud_slash, hud_file, ← hsel]
    cases fileBacked base <;> simp
  rw [read_seeded]
  dsimp only
  rw [hrf_md]
  cases hR1 : R (seed_url base ext "meta-data") t (if fileBacked base then fr else r) with
  | error e =>
      dsimp only
      constructor
      · exact Or.inr ⟨rfl, e, rfl, rfl⟩
      · intro md ud mc msc uc usc hok _ _
        exact absurd hok (by simp)
  | ok p =>
      obtain ⟨mc0, msc0⟩ := p
      dsimp only
      rw [hrf_ud]
      cases hR2 : R (seed_url base ext "user-data") t (if fileBacked base then fr else r) with
      | error e =>
          dsimp only
          constructor
          · exact Or.inl rfl
          · intro md ud mc msc uc usc hok _ _
            exact absurd hok (by simp)
      | ok q =>
          obtain ⟨uc0, usc0⟩ := q
          dsimp only
          constructor
          · exact Or.inl rfl
          · intro md ud mc msc uc usc hok hmc huc
            injection hmc with hmc
            injection huc with huc
            injection hmc with hmcA hmcB
            injection huc with hucA hucB
            injection hok with hok
            injection hok with hokA hokB
            subst hmcA
            subst hmcB
            subst hucA
            subst hucB
            exact ⟨hokA.symm, hokB.symm⟩

/-- Witness for C7 on the file-backed base `/seed/` with a fetcher that
always returns `("a: 1", 200)`: both fetched results are present and equal
the presence-conditioned values (metadata parsed, user-data opaque). -/
theorem read_seeded_budget_order_presence_witness :
    some (Val.dict [("a", Val.int 1)])
        = (if !("a: 1" : String).isEmpty && ok_http_code 200
           then some (load_yaml yamlSeed "a: 1" (Val.dict [])) else none) ∧
    some ("a: 1" : String)
        = (if !("a: 1" : String).isEmpty && ok_http_code 200
           then some ("a: 1" : String) else none) :=
  (read_seeded_budget_order_presence fetchOk yamlSeed "/seed/" "" 5 10 0).2
    (some (Val.dict [("a", Val.int 1)])) (some "a: 1") "a: 1" 200 "a: 1" 200 rfl rfl rfl

end Cloudinit
